import Mathlib

/-!
Verification development for the Onkyo eISCP integration
(`intg-onkyoavr/eiscp.py`, `intg-onkyoavr/avr.py`, `intg-onkyo/receiver.py`).

The Python code is shallowly embedded: strings become `List Char`, byte
strings become `List Nat` (each entry a byte value), stateful handlers
become explicit state-passing functions, and code that can raise returns
`Option`/`Except`.
-/

/-! ## Python string helpers -/

/-- Characters stripped by Python's `str.strip()` (the CPython Unicode
whitespace set, given by code point). -/
def isPySpace (c : Char) : Bool :=
  let n := c.toNat
  decide ((9 ≤ n ∧ n ≤ 13) ∨ (28 ≤ n ∧ n ≤ 32) ∨ n = 133 ∨ n = 160 ∨
    n = 5760 ∨ (8192 ≤ n ∧ n ≤ 8202) ∨ n = 8232 ∨ n = 8233 ∨ n = 8239 ∨
    n = 8287 ∨ n = 12288)

/-- Python `str.lstrip()` (no argument form). -/
def pyLstrip (l : List Char) : List Char := l.dropWhile isPySpace

/-- Python `str.rstrip()` (no argument form). -/
def pyRstrip (l : List Char) : List Char := (l.reverse.dropWhile isPySpace).reverse

/-- Python `str.strip()` (no argument form). -/
def pyStrip (l : List Char) : List Char := pyRstrip (pyLstrip l)

/-- The trailing markers removed by `message.rstrip('\r\n\x1a')` in
`OnkyoEISCP._listen`: CR (13), LF (10) and EOF/SUB (26). -/
def isMark (c : Char) : Bool :=
  decide (c.toNat = 13 ∨ c.toNat = 10 ∨ c.toNat = 26)

/-- Python `message.rstrip('\r\n\x1a')`. -/
def rstripMarks (l : List Char) : List Char := (l.reverse.dropWhile isMark).reverse

/-- `pat` is an initial segment of `l` — Python `str.startswith`. -/
def beginsWith : List Char → List Char → Bool
  | [], _ => true
  | _ :: _, [] => false
  | p :: ps, c :: cs => p = c && beginsWith ps cs

/-- Python `str.split(sep)` for a one-character separator: keeps empty
pieces, always returns at least one piece. -/
def splitChar (l : List Char) (sep : Char) : List (List Char) :=
  match l with
  | [] => [[]]
  | c :: rest =>
    if c = sep then [] :: splitChar rest sep
    else
      match splitChar rest sep with
      | [] => [[c]]
      | p :: ps => (c :: p) :: ps

/-- Value of a (hex) digit character. -/
def digitVal (c : Char) : Nat :=
  if '0' ≤ c ∧ c ≤ '9' then c.toNat - 48
  else if 'A' ≤ c ∧ c ≤ 'F' then c.toNat - 55
  else if 'a' ≤ c ∧ c ≤ 'f' then c.toNat - 87
  else 0

/-- Is `c` a digit of the given base (10 or 16)? -/
def isDigitBase (base : Nat) (c : Char) : Bool :=
  if base = 16 then
    decide (('0' ≤ c ∧ c ≤ '9') ∨ ('A' ≤ c ∧ c ≤ 'F') ∨ ('a' ≤ c ∧ c ≤ 'f'))
  else decide ('0' ≤ c ∧ c ≤ '9')

/-- Digit run of Python `int(s, base)`: digits optionally separated by
single underscores (`1_0` parses, `1__0`, `1_`, `_1` do not). -/
def parseDigits (base : Nat) : Nat → List Char → Option Nat
  | acc, [] => some acc
  | acc, c :: rest =>
    if isDigitBase base c then parseDigits base (acc * base + digitVal c) rest
    else if c = '_' then
      match rest with
      | c2 :: rest2 =>
        if isDigitBase base c2 then parseDigits base (acc * base + digitVal c2) rest2
        else none
      | [] => none
    else none

/-- Nonempty digit run starting with a digit. -/
def pyIntDigits (base : Nat) (l : List Char) : Option Nat :=
  match l with
  | c :: rest => if isDigitBase base c then parseDigits base (digitVal c) rest else none
  | [] => none

/-- Body of `int(s, 16)` after sign removal: an optional `0x`/`0X` marker
(optionally followed by one underscore) and then hex digits. -/
def pyIntBody16 (l : List Char) : Option Nat :=
  match l with
  | '0' :: c :: rest =>
    if c = 'x' ∨ c = 'X' then
      match rest with
      | '_' :: r2 => pyIntDigits 16 r2
      | _ => pyIntDigits 16 rest
    else pyIntDigits 16 l
  | _ => pyIntDigits 16 l

/-- Python `int(value, 16)`: strip whitespace, optional sign, optional
`0x` marker, hex digits; `none` models the `ValueError`. -/
def pyIntHex (l : List Char) : Option Int :=
  match pyStrip l with
  | '-' :: rest => (pyIntBody16 rest).map fun n => -(n : Int)
  | '+' :: rest => (pyIntBody16 rest).map fun n => (n : Int)
  | s => (pyIntBody16 s).map fun n => (n : Int)

/-- Python `int(value)` (base 10). -/
def pyInt (l : List Char) : Option Int :=
  match pyStrip l with
  | '-' :: rest => (pyIntDigits 10 rest).map fun n => -(n : Int)
  | '+' :: rest => (pyIntDigits 10 rest).map fun n => (n : Int)
  | s => (pyIntDigits 10 s).map fun n => (n : Int)

/-- Uppercase hex digit for a value below 16. -/
def hexDigit (n : Nat) : Char :=
  if n < 10 then Char.ofNat (48 + n) else Char.ofNat (55 + n)

/-- Fuel-driven digit loop for uppercase hex printing; the fuel `n`
itself is enough, since a number has at most as many hex digits as its
value has units. -/
def toHexUpperGo : Nat → Nat → List Char
  | 0, n => [hexDigit n]
  | fuel + 1, n =>
    if n < 16 then [hexDigit n]
    else toHexUpperGo fuel (n / 16) ++ [hexDigit (n % 16)]

/-- Uppercase hex digits of `n`, no padding. -/
def toHexUpper (n : Nat) : List Char := toHexUpperGo n n

/-- Python `format(n, "02X")` for a nonnegative `n`: uppercase hex,
zero-padded on the left to width 2. -/
def format02X (n : Nat) : List Char :=
  let h := toHexUpper n
  if h.length < 2 then List.replicate (2 - h.length) '0' ++ h else h

/-! ## UTF-8 encoding and decoding

Python `str.encode("utf-8")` and strict `bytes.decode("utf-8")`.
Decoding rejects continuation errors, overlong forms, surrogates and
code points above `0x10FFFF`, exactly as CPython's strict decoder does.
-/

/-- UTF-8 encoding of one character (1 to 4 bytes). -/
def utf8EncodeChar (c : Char) : List Nat :=
  let n := c.toNat
  if n < 128 then [n]
  else if n < 2048 then [192 + n / 64, 128 + n % 64]
  else if n < 65536 then [224 + n / 4096, 128 + n / 64 % 64, 128 + n % 64]
  else [240 + n / 262144, 128 + n / 4096 % 64, 128 + n / 64 % 64, 128 + n % 64]

/-- Python `s.encode("utf-8")`. -/
def pyEncodeUtf8 (l : List Char) : List Nat := (l.map utf8EncodeChar).flatten

/-- Is `b` a UTF-8 continuation byte? -/
def isCont (b : Nat) : Bool := decide (128 ≤ b ∧ b ≤ 191)

/-- Valid second byte of a 3-byte sequence led by `b` (excludes overlong
forms for `0xE0` and surrogates for `0xED`). -/
def cont3first (b b2 : Nat) : Bool :=
  if b = 224 then decide (160 ≤ b2 ∧ b2 ≤ 191)
  else if b = 237 then decide (128 ≤ b2 ∧ b2 ≤ 159)
  else isCont b2

/-- Valid second byte of a 4-byte sequence led by `b` (excludes overlong
forms for `0xF0` and values above `0x10FFFF` for `0xF4`). -/
def cont4first (b b2 : Nat) : Bool :=
  if b = 240 then decide (144 ≤ b2 ∧ b2 ≤ 191)
  else if b = 244 then decide (128 ≤ b2 ∧ b2 ≤ 143)
  else isCont b2

/-- Decode one UTF-8 sequence from the head of the byte list; `none` on a
malformed head. -/
def utf8DecodeOne : List Nat → Option (Char × List Nat)
  | [] => none
  | b :: rest =>
    if b < 128 then some (Char.ofNat b, rest)
    else if 194 ≤ b ∧ b ≤ 223 then
      match rest with
      | b2 :: r =>
        if isCont b2 then some (Char.ofNat ((b - 192) * 64 + (b2 - 128)), r) else none
      | [] => none
    else if 224 ≤ b ∧ b ≤ 239 then
      match rest with
      | b2 :: b3 :: r =>
        if cont3first b b2 && isCont b3 then
          some (Char.ofNat ((b - 224) * 4096 + (b2 - 128) * 64 + (b3 - 128)), r)
        else none
      | _ => none
    else if 240 ≤ b ∧ b ≤ 244 then
      match rest with
      | b2 :: b3 :: b4 :: r =>
        if cont4first b b2 && isCont b3 && isCont b4 then
          some (Char.ofNat ((b - 240) * 262144 + (b2 - 128) * 4096 + (b3 - 128) * 64 + (b4 - 128)), r)
        else none
      | _ => none
    else none

/-- Fuel-driven strict decoding loop; the fuel is the byte count, enough
because every decoded character consumes at least one byte. -/
def utf8DecodeGo : Nat → List Nat → Option (List Char)
  | _, [] => some []
  | 0, _ :: _ => none
  | fuel + 1, l =>
    match utf8DecodeOne l with
    | some (c, rest) => (utf8DecodeGo fuel rest).map (c :: ·)
    | none => none

/-- Python strict `bytes.decode("utf-8")`; `none` models the
`UnicodeDecodeError`. -/
def utf8Decode (l : List Nat) : Option (List Char) := utf8DecodeGo l.length l

/-- Fuel-driven lenient decoding loop for `errors="ignore"`: an
undecodable byte is skipped. -/
def utf8DecodeIgnoreGo : Nat → List Nat → List Char
  | _, [] => []
  | 0, _ :: _ => []
  | fuel + 1, l@(_ :: tail) =>
    match utf8DecodeOne l with
    | some (c, rest) => c :: utf8DecodeIgnoreGo fuel rest
    | none => utf8DecodeIgnoreGo fuel tail

/-- Python `bytes.decode("utf-8", errors="ignore")`. -/
def utf8DecodeIgnore (l : List Nat) : List Char := utf8DecodeIgnoreGo l.length l

/-! ## eISCP frame codec (`intg-onkyoavr/eiscp.py`) -/

/-- The 4-byte magic `b"ISCP"`. -/
def iscpMagic : List Nat := [73, 83, 67, 80]

/-- Big-endian 4-byte encoding of `n`, as produced by `struct.pack("!I", n)`.
`struct.pack` raises for `n ≥ 2^32`; every use in the source is bounded,
and the theorems below carry that bound explicitly. -/
def be32 (n : Nat) : List Nat :=
  [n / 16777216 % 256, n / 65536 % 256, n / 256 % 256, n % 256]

/-- Big-endian read of a 4-byte list, as done by `struct.unpack("!I", ·)`. -/
def be32of (b : List Nat) : Nat :=
  match b with
  | [b0, b1, b2, b3] => ((b0 * 256 + b1) * 256 + b2) * 256 + b3
  | _ => 0

/-- `OnkyoEISCP._build_packet`: payload `"!1" + command + "\r\n"` UTF-8
encoded, preceded by the 16-byte header
`pack("!4sIIBBBB", b"ISCP", 16, len(payload), 1, 0, 0, 0)`. -/
def build_packet (command : List Char) : List Nat :=
  let payload := pyEncodeUtf8 ('!' :: '1' :: command ++ ['\r', '\n'])
  iscpMagic ++ be32 16 ++ be32 payload.length ++ [1, 0, 0, 0] ++ payload

/-- Outcome of one loop iteration over the byte stream. -/
inductive StepOut where
  | frame (cmd value : List Char) (rest : List Nat)
  | dropped (rest : List Nat)
  | badMagic (rest : List Nat)
  | fatal
deriving DecidableEq

/-- The message clean-up chain of `_listen` lines 81–86: strip
whitespace, drop a leading `"!1"` marker, strip trailing CR/LF/EOF
markers. -/
def decodeMessage (chars : List Char) : List Char :=
  rstripMarks
    (if beginsWith ['!', '1'] (pyStrip chars) then (pyStrip chars).drop 2 else pyStrip chars)

/-- One iteration of `OnkyoEISCP._listen` over the remaining stream
`input`.  Header fields as unpacked by `struct.unpack("!4sIIB3s", header)`:
the magic is bytes 0–3 of the header and `data_size` is bytes 8–11
(big-endian); since the header is `input.take 16`, those are `input.take 4`
and `(input.drop 8).take 4`.  On `magic != b"ISCP"` the code executes
`continue`, having consumed only the 16 header bytes. -/
def listenStep (input : List Nat) : StepOut :=
  if input.length < 16 then StepOut.fatal
  else if input.take 4 ≠ iscpMagic then StepOut.badMagic (input.drop 16)
  else if (input.drop 16).length < be32of ((input.drop 8).take 4) then StepOut.fatal
  else
    match utf8Decode ((input.drop 16).take (be32of ((input.drop 8).take 4))) with
    | none => StepOut.fatal
    | some chars =>
      if 3 ≤ (decodeMessage chars).length then
        StepOut.frame ((decodeMessage chars).take 3) ((decodeMessage chars).drop 3)
          ((input.drop 16).drop (be32of ((input.drop 8).take 4)))
      else StepOut.dropped ((input.drop 16).drop (be32of ((input.drop 8).take 4)))

/-- A registered callback: receives `(cmd, value)`, transforms the device
state, and may raise (`Except.error`). -/
def Cb (σ : Type) : Type := List Char → List Char → σ → Except String σ

/-- The `for callback in self._callbacks[cmd]` loop: each callback runs in
its own `try`/`except Exception` block, so a raising callback leaves the
state as it was and the iteration moves on to the next callback. -/
def runCallbacks {σ : Type} (cbs : List (Cb σ)) (cmd value : List Char) (s : σ) : σ :=
  cbs.foldl
    (fun st cb =>
      match cb cmd value st with
      | Except.ok st2 => st2
      | Except.error _ => st)
    s

/-- Loop-level state: the `_connected` flag, the unread byte stream, and
the device state mutated by the callbacks. -/
structure LoopState (σ : Type) where
  connected : Bool
  buf : List Nat
  dev : σ
deriving Repr

/-- One full iteration of the listener loop including dispatch: `registry`
maps a command code to its callback list (`[]` when the code has no entry,
matching the `if cmd in self._callbacks` guard).  Returns the next loop
state and whether the loop keeps running. -/
def listenIter {σ : Type} (registry : List Char → List (Cb σ)) (st : LoopState σ) :
    LoopState σ × Bool :=
  match listenStep st.buf with
  | StepOut.frame cmd value rest =>
    ({ st with buf := rest, dev := runCallbacks (registry cmd) cmd value st.dev }, true)
  | StepOut.dropped rest => ({ st with buf := rest }, true)
  | StepOut.badMagic rest => ({ st with buf := rest }, true)
  | StepOut.fatal => ({ st with connected := false }, false)

/-! ## Device state handlers (`intg-onkyoavr/avr.py`) -/

/-- `mm:ss` half of `OnkyoDevice._on_time_update`: `half.split(":")`
unpacked into two pieces, each fed to `int(·)`; `none` models the
exception (from unpacking or parsing). -/
def parseTimeHalf (half : List Char) : Option Int :=
  match splitChar half ':' with
  | [m, s] =>
    match pyInt m, pyInt s with
    | some mi, some si => some (mi * 60 + si)
    | _, _ => none
  | _ => none

/-- `OnkyoDevice._on_time_update` acting on `(position, duration)`.
The whole body sits in one `try`/`except`, and `self._media_position` is
assigned before the duration half is parsed, so an exception raised by the
duration half keeps the already-updated position. -/
def on_time_update (pos dur : Int) (value : List Char) : Int × Int :=
  if '/' ∈ value then
    match splitChar value '/' with
    | [current, total] =>
      if ':' ∈ current then
        match parseTimeHalf current with
        | none => (pos, dur)
        | some p =>
          if ':' ∈ total then
            match parseTimeHalf total with
            | none => (p, dur)
            | some d => (p, d)
          else (p, dur)
      else
        if ':' ∈ total then
          match parseTimeHalf total with
          | none => (pos, dur)
          | some d => (pos, d)
        else (pos, dur)
    | _ => (pos, dur)
  else (pos, dur)

/-- `OnkyoDevice.set_volume_level`: clamp to `[0, 80]` and format as
2-digit uppercase hex; the result is the value string sent with the
volume command. -/
def set_volume_level (volume : Int) : List Char :=
  format02X (max 0 (min 80 volume)).toNat

namespace OnkyoReceiver

/-- `OnkyoReceiver.set_volume` (`intg-onkyo/receiver.py`): rejects an
out-of-range argument with `False` before any send; in range, formats and
sends.  The result is the value string sent, `none` when nothing is sent. -/
def set_volume (volume : Int) : Option (List Char) :=
  if 0 ≤ volume ∧ volume ≤ 80 then some (format02X volume.toNat) else none

end OnkyoReceiver

/-! ## Connection teardown (`OnkyoEISCP.disconnect`) -/

/-- Exceptions that can surface in the teardown path. -/
inductive PyExc where
  | cancelledError
  | other (msg : String)
deriving DecidableEq

/-- State of the background listener task. -/
inductive TaskState where
  | running
  | cancelled
  | finished
deriving DecidableEq

/-- State of the stream writer's transport.  After an abortive connection
loss, asyncio's `connection_lost(exc)` stores the exception on the
transport's close waiter; `aborted msg` is that state, carrying the stored
exception (e.g. `ConnectionResetError`). -/
inductive WriterState where
  | opened
  | closed
  | aborted (msg : String)
deriving DecidableEq

/-- The fields of `OnkyoEISCP` that `disconnect` touches: the
`_connected` flag, the writer (absent before any connect) and the
listener task handle (absent before any connect; never reset to `None`). -/
structure Conn where
  connected : Bool
  writer : Option WriterState
  listenTask : Option TaskState
deriving DecidableEq

/-- `task.cancel()`: requests cancellation of a running task; a no-op on a
task that already finished or was already cancelled. -/
def cancelTask : TaskState → TaskState
  | TaskState.running => TaskState.cancelled
  | t => t

/-- `await task`: awaiting a cancelled task raises `CancelledError`;
awaiting a finished task returns normally. -/
def awaitTask : TaskState → Except PyExc Unit
  | TaskState.cancelled => Except.error PyExc.cancelledError
  | _ => Except.ok ()

/-- `writer.close()`: starts closing an open transport; a no-op on a
transport that is already closed or was lost abortively. -/
def closeWriter : WriterState → WriterState
  | WriterState.opened => WriterState.closed
  | w => w

/-- `await writer.wait_closed()`: awaits the transport's close waiter.
When `connection_lost(exc)` stored an exception there (abortive loss),
every await of that future re-raises it; a cleanly closed transport
returns normally. -/
def waitClosed : WriterState → Except PyExc Unit
  | WriterState.aborted msg => Except.error (PyExc.other msg)
  | _ => Except.ok ()

/-- `OnkyoEISCP.disconnect`: cancel and await the listener task (the
`except asyncio.CancelledError: pass` swallows the cancellation), then
`close()` the writer and `await wait_closed()` — an exception raised
there propagates out of the method, skipping the final
`self._connected = False` assignment.  The `Except` result models any
exception escaping the method. -/
def disconnect (c : Conn) : Except PyExc Conn :=
  let step1 : Except PyExc Conn :=
    match c.listenTask with
    | some t =>
      let t2 := cancelTask t
      match awaitTask t2 with
      | Except.ok _ => Except.ok { c with listenTask := some t2 }
      | Except.error PyExc.cancelledError => Except.ok { c with listenTask := some t2 }
      | Except.error e => Except.error e
    | none => Except.ok c
  match step1 with
  | Except.error e => Except.error e
  | Except.ok ca =>
    let step2 : Except PyExc Conn :=
      match ca.writer with
      | some w =>
        match waitClosed (closeWriter w) with
        | Except.ok _ => Except.ok { ca with writer := some (closeWriter w) }
        | Except.error e => Except.error e
      | none => Except.ok ca
    match step2 with
    | Except.error e => Except.error e
    | Except.ok cc => Except.ok { cc with connected := false }

/-! ## Discovery (`discover_receivers`) -/

/-- One discovered receiver record `{host, port, model}`. -/
structure ReceiverInfo where
  host : String
  port : Nat
  model : List Char
deriving DecidableEq

/-- Remove every occurrence of `pat` from `s` — Python
`s.replace(pat, "")` with the nonempty pattern `"!1ECN"`; scans left to
right, fuel is the input length (each step consumes at least one
character). -/
def replaceAllGo : Nat → List Char → List Char → List Char
  | 0, s, _ => s
  | fuel + 1, s, pat =>
    match s with
    | [] => []
    | c :: rest =>
      if pat ≠ [] ∧ beginsWith pat s then replaceAllGo fuel (s.drop pat.length) pat
      else c :: replaceAllGo fuel rest pat

/-- Python `s.replace(pat, "")` for nonempty `pat`. -/
def replaceAll (s pat : List Char) : List Char := replaceAllGo s.length s pat

/-- Python `pat in s` substring containment. -/
def strContains (s pat : List Char) : Bool :=
  (List.range (s.length + 1)).any fun i => beginsWith pat (s.drop i)

/-- Processing of one received datagram in `discover_receivers`
(`intg-onkyoavr/eiscp.py` lines 173–184): check length and magic, decode
the payload ignoring undecodable bytes, require the `"ECN"` marker, take
the text before the first `/`, drop the `"!1ECN"` tag and strip; `none`
when the datagram is not a usable reply. -/
def datagram_info (addr : String) (data : List Nat) : Option ReceiverInfo :=
  if 16 < data.length ∧ data.take 4 = iscpMagic then
    let response := utf8DecodeIgnore (data.drop 16)
    if strContains response ['E', 'C', 'N'] then
      let parts := splitChar response '/'
      let model :=
        match parts with
        | [] => ['U', 'n', 'k', 'n', 'o', 'w', 'n']
        | p :: _ => pyStrip (replaceAll p ['!', '1', 'E', 'C', 'N'])
      some { host := addr, port := 60128, model := model }
    else none
  else none

/-- The dedup-and-append step `if receiver_info not in receivers:
receivers.append(receiver_info)` applied to one datagram. -/
def process_datagram (receivers : List ReceiverInfo) (addr : String) (data : List Nat) :
    List ReceiverInfo :=
  match datagram_info addr data with
  | none => receivers
  | some info => if info ∈ receivers then receivers else receivers ++ [info]

/-- `discover_receivers` restricted to its receive loop: fold the
dedup-and-append step over the datagrams `(sender, bytes)` received
before the timeout, starting from the empty result list. -/
def discover_receivers (datagrams : List (String × List Nat)) : List ReceiverInfo :=
  datagrams.foldl (fun acc p => process_datagram acc p.1 p.2) []

/-- A callback raising on every invocation. -/
def cbBoom : Cb Int := fun _ _ _ => Except.error "boom"

/-- A callback adding one to the device state. -/
def cbInc : Cb Int := fun _ _ s => Except.ok (s + 1)

/-- A callback doubling the device state. -/
def cbDouble : Cb Int := fun _ _ s => Except.ok (s * 2)

/-- ASCII alphanumeric character (the command codes of the protocol). -/
def isAsciiAlnum (c : Char) : Bool :=
  decide ((48 ≤ c.toNat ∧ c.toNat ≤ 57) ∨ (65 ≤ c.toNat ∧ c.toNat ≤ 90) ∨
    (97 ≤ c.toNat ∧ c.toNat ≤ 122))

/-- Printable ASCII character (code points 32–126); CR and LF are outside
this range. -/
def isPrintableAscii (c : Char) : Bool :=
  decide (32 ≤ c.toNat ∧ c.toNat ≤ 126)

/-! ## Shared helper lemmas -/

/-- Decoding the 2-digit uppercase hex format gives the value back, for
every volume in the device range. -/
theorem pyIntHex_format02X : ∀ n : Nat, n < 81 → pyIntHex (format02X n) = some (n : Int) := by
  decide

/-! ## C4 — volume clamping -/

/-- C4, counterexample: the claim says every integer argument to the
set-volume operation is clamped into `[0, 80]` and then sent (`-5` sends
`"00"`), but `OnkyoReceiver.set_volume` (`intg-onkyo/receiver.py`) rejects
an out-of-range argument with `False` and sends nothing at all. -/
theorem c4_counterexample : OnkyoReceiver.set_volume (-5) = none := by decide

/-- C4, amended: `OnkyoDevice.set_volume_level` (`intg-onkyoavr/avr.py`)
clamps every integer into `[0, 80]` and always sends the clamped value as
2-digit uppercase hex (`-5 ↦ "00"`, `999 ↦ "50"`, `40 ↦ "28"`), while
`OnkyoReceiver.set_volume` (`intg-onkyo/receiver.py`) sends the same hex
string only for in-range arguments and rejects out-of-range arguments
with a failure result and no send. -/
theorem c4_volume_clamp :
    (∀ v : Int, pyIntHex (set_volume_level v) = some (max 0 (min 80 v))) ∧
    set_volume_level (-5) = ['0', '0'] ∧
    set_volume_level 999 = ['5', '0'] ∧
    set_volume_level 40 = ['2', '8'] ∧
    (∀ v : Int, 0 ≤ v → v ≤ 80 → OnkyoReceiver.set_volume v = some (set_volume_level v)) ∧
    (∀ v : Int, v < 0 ∨ 80 < v → OnkyoReceiver.set_volume v = none) := by
  refine ⟨?_, by decide, by decide, by decide, ?_, ?_⟩
  · intro v
    have hlt : (max 0 (min 80 v)).toNat < 81 := by omega
    have hcast : ((max 0 (min 80 v)).toNat : Int) = max 0 (min 80 v) := by omega
    rw [set_volume_level, pyIntHex_format02X _ hlt, hcast]
  · intro v h0 h80
    have hv : max 0 (min 80 v) = v := by omega
    rw [OnkyoReceiver.set_volume, if_pos ⟨h0, h80⟩, set_volume_level, hv]
  · intro v h
    rw [OnkyoReceiver.set_volume, if_neg]
    intro hc
    omega

/-- C4, witness: the amended theorem applied at `40` and `81`. -/
theorem c4_volume_clamp_witness :
    OnkyoReceiver.set_volume 40 = some (set_volume_level 40) ∧
    OnkyoReceiver.set_volume 81 = none :=
  ⟨c4_volume_clamp.2.2.2.2.1 40 (by decide) (by decide),
   c4_volume_clamp.2.2.2.2.2 81 (Or.inr (by decide))⟩

/-! ## C5 — NET/USB time parsing -/

/-- C5, counterexample: the claim says every malformed value (including
ones with non-numeric parts) leaves both position and duration unchanged,
but `"01:30/aa:bb"` updates the position to `90` before the duration half
raises: from prior state `(0, 7)` the handler produces `(90, 7)`. -/
theorem c5_counterexample : on_time_update 0 7 ("01:30/aa:bb".toList) = (90, 7) := by rfl

/-- C5, amended: `"01:30/04:15"` yields position `90` and duration `255`;
the handler never raises; a value with no `/` separator (such as
`"garbage"`) leaves both position and duration unchanged; but a value
whose position half parses while its duration half is malformed updates
the position and leaves only the duration unchanged. -/
theorem c5_time_parsing :
    (∀ p d : Int, on_time_update p d ("01:30/04:15".toList) = (90, 255)) ∧
    (∀ p d : Int, on_time_update p d ("garbage".toList) = (p, d)) ∧
    (∀ (p d : Int) (v : List Char), '/' ∉ v → on_time_update p d v = (p, d)) ∧
    (∀ p d : Int, on_time_update p d ("01:30/aa:bb".toList) = (90, d)) := by
  refine ⟨fun p d => rfl, fun p d => rfl, ?_, fun p d => rfl⟩
  intro p d v h
  rw [on_time_update, if_neg h]

/-- C5, witness: the amended theorem applied at concrete inputs. -/
theorem c5_time_parsing_witness :
    on_time_update 3 4 ("noslash".toList) = (3, 4) ∧
    on_time_update 3 4 ("01:30/04:15".toList) = (90, 255) :=
  ⟨c5_time_parsing.2.2.1 3 4 _ (by decide), c5_time_parsing.1 3 4⟩

/-! ## C6 — volume state invariant -/

/-- C8, counterexample: the claim says `disconnect` raises no error on a
repeated call and leaves the state `Disconnected` after any call, but on a
connection whose transport was lost abortively (peer reset: the listener's
error path already cleared the flag and its task finished), `wait_closed()`
re-raises the stored `ConnectionResetError` out of `disconnect` — and the
object's fields are unchanged by the raising call, so the second call is
this very same state and raises identically. -/
theorem c8_counterexample :
    disconnect
        { connected := false,
          writer := some (WriterState.aborted "Connection reset by peer"),
          listenTask := some TaskState.finished } =
      Except.error (PyExc.other "Connection reset by peer") := by
  rfl

/-- C8, amended: `disconnect` is idempotent and raises no error as long as
the writer has not suffered an abortive connection loss — on every such
state, including one that never connected (`writer`/`listenTask` absent),
it returns normally with `_connected = False`, and a second call again
returns normally with `_connected = False`.  But on any state whose writer
holds a stored connection-lost exception, `disconnect` re-raises that
exception (skipping the final `_connected = False` assignment), on the
first and every subsequent call. -/
theorem c8_disconnect_idempotent :
    (∀ c : Conn, (∀ m : String, c.writer ≠ some (WriterState.aborted m)) →
      ∃ c1 : Conn,
        disconnect c = Except.ok c1 ∧ c1.connected = false ∧
        ∃ c2 : Conn, disconnect c1 = Except.ok c2 ∧ c2.connected = false) ∧
    (∀ (conn : Bool) (t : Option TaskState) (m : String),
      disconnect ⟨conn, some (WriterState.aborted m), t⟩ =
        Except.error (PyExc.other m)) := by
  constructor
  · intro c hw
    obtain ⟨conn, w, t⟩ := c
    cases w with
    | none =>
      cases t with
      | none => exact ⟨_, rfl, rfl, _, rfl, rfl⟩
      | some ts => cases ts <;> exact ⟨_, rfl, rfl, _, rfl, rfl⟩
    | some ws =>
      cases ws with
      | opened =>
        cases t with
        | none => exact ⟨_, rfl, rfl, _, rfl, rfl⟩
        | some ts => cases ts <;> exact ⟨_, rfl, rfl, _, rfl, rfl⟩
      | closed =>
        cases t with
        | none => exact ⟨_, rfl, rfl, _, rfl, rfl⟩
        | some ts => cases ts <;> exact ⟨_, rfl, rfl, _, rfl, rfl⟩
      | aborted m => exact absurd rfl (hw m)
  · intro conn t m
    cases t with
    | none => rfl
    | some ts => cases ts <;> rfl

/-- C8, witness: the amended theorem applied to a live connection (task
running, writer open) for the clean double-disconnect, and to the
peer-reset state for the raising path. -/
theorem c8_disconnect_idempotent_witness :
    (∃ c1 : Conn,
      disconnect ⟨true, some WriterState.opened, some TaskState.running⟩ =
        Except.ok c1 ∧
      c1.connected = false ∧
      ∃ c2 : Conn, disconnect c1 = Except.ok c2 ∧ c2.connected = false) ∧
    disconnect ⟨false, some (WriterState.aborted "reset"), some TaskState.finished⟩ =
      Except.error (PyExc.other "reset") :=
  ⟨c8_disconnect_idempotent.1 ⟨true, some WriterState.opened, some TaskState.running⟩
      (fun _ hm => WriterState.noConfusion (Option.some.inj hm)),
    c8_disconnect_idempotent.2 false (some TaskState.finished) "reset"⟩

/-! ## C9 — discovery de-duplication -/

/-- C9: within one `discover_receivers` run the result list never holds
two structurally equal `{host, port, model}` records: each datagram step
either leaves the list unchanged or appends one record that is not yet
present, so the folded result is duplicate-free; in particular processing
the same datagram a second time on the result of the first changes
nothing. -/
theorem c9_discovery_dedup :
    (∀ ds : List (String × List Nat), (discover_receivers ds).Nodup) ∧
    (∀ (acc : List ReceiverInfo) (addr : String) (data : List Nat),
        process_datagram acc addr data = acc ∨
        ∃ i, i ∉ acc ∧ process_datagram acc addr data = acc ++ [i]) ∧
    (∀ (addr : String) (data : List Nat),
        process_datagram (process_datagram [] addr data) addr data =
          process_datagram [] addr data) := by
  have hstep : ∀ (acc : List ReceiverInfo) (addr : String) (data : List Nat),
      process_datagram acc addr data = acc ∨
      ∃ i, i ∉ acc ∧ process_datagram acc addr data = acc ++ [i] := by
    intro acc addr data
    rw [process_datagram]
    cases h : datagram_info addr data with
    | none => exact Or.inl rfl
    | some i =>
      by_cases hm : i ∈ acc
      · exact Or.inl (if_pos hm)
      · exact Or.inr ⟨i, hm, if_neg hm⟩
  have haux : ∀ (ds : List (String × List Nat)) (acc : List ReceiverInfo), acc.Nodup →
      (ds.foldl (fun a p => process_datagram a p.1 p.2) acc).Nodup := by
    intro ds
    induction ds with
    | nil => intro acc h; exact h
    | cons p rest ih =>
      intro acc h
      rw [List.foldl_cons]
      apply ih
      rcases hstep acc p.1 p.2 with he | ⟨i, hi, he⟩
      · rw [he]; exact h
      · rw [he]
        have : acc ++ [i] = acc.concat i := (List.concat_eq_append acc i).symm
        rw [this]
        exact List.Nodup.concat hi h
  refine ⟨fun ds => haux ds [] List.nodup_nil, hstep, ?_⟩
  intro addr data
  cases h : datagram_info addr data with
  | none =>
    have h1 : process_datagram [] addr data = [] := by rw [process_datagram, h]
    rw [h1]
    exact h1
  | some i =>
    have h1 : process_datagram [] addr data = [i] := by
      rw [process_datagram, h]
      simp
    rw [h1, process_datagram, h]
    simp

/-! ## C10 — empty command on raw send -/

/-- Dispatch over an appended callback list splits into sequential
dispatch. -/
theorem runCallbacks_append {σ : Type} (cbs1 cbs2 : List (Cb σ)) (cmd value : List Char)
    (s : σ) :
    runCallbacks (cbs1 ++ cbs2) cmd value s =
      runCallbacks cbs2 cmd value (runCallbacks cbs1 cmd value s) := by
  simp [runCallbacks, List.foldl_append]

/-- A callback that raises is skipped: the state it saw is handed
unchanged to the callbacks after it. -/
theorem runCallbacks_cons_error {σ : Type} (bad : Cb σ) (cbs : List (Cb σ))
    (cmd value : List Char) (s : σ) (m : String) (hm : bad cmd value s = Except.error m) :
    runCallbacks (bad :: cbs) cmd value s = runCallbacks cbs cmd value s := by
  simp [runCallbacks, hm]

/-- C7: a callback that raises on a decoded frame is caught individually —
dispatch over the surrounding callbacks proceeds exactly as if the raising
callback were absent, and the listener iteration for that frame still ends
with the loop continuing and the connection flag untouched. -/
theorem c7_callback_isolation {σ : Type} (cbs1 cbs2 : List (Cb σ)) (bad : Cb σ)
    (hbad : ∀ (c v : List Char) (s : σ), ∃ m, bad c v s = Except.error m)
    (cmd value : List Char) (s : σ) :
    runCallbacks (cbs1 ++ bad :: cbs2) cmd value s =
      runCallbacks cbs2 cmd value (runCallbacks cbs1 cmd value s) ∧
    ∀ (registry : List Char → List (Cb σ)) (buf : List Nat) (dev : σ) (rest : List Nat),
      listenStep buf = StepOut.frame cmd value rest →
      listenIter registry ⟨true, buf, dev⟩ =
        (⟨true, rest, runCallbacks (registry cmd) cmd value dev⟩, true) := by
  constructor
  · rw [runCallbacks_append]
    obtain ⟨m, hm⟩ := hbad cmd value (runCallbacks cbs1 cmd value s)
    rw [runCallbacks_cons_error bad cbs2 cmd value _ m hm]
  · intro registry buf dev rest hstep
    simp [listenIter, hstep]

/-- C7, witness: the theorem applied to the callback list
`[cbInc, cbBoom, cbDouble]` on the decoded frame `PWR 01` — the raising
callback in the middle does not stop `cbDouble`, and the loop keeps
running with the connection open. -/
theorem c7_callback_isolation_witness :
    runCallbacks ([cbInc] ++ cbBoom :: [cbDouble]) ['P', 'W', 'R'] ['0', '1'] 5 = 12 ∧
    listenIter (fun _ => [cbInc, cbBoom, cbDouble])
        ⟨true, build_packet ("PWR01".toList), 5⟩ = (⟨true, [], 12⟩, true) := by
  have h := c7_callback_isolation [cbInc] [cbDouble] cbBoom
    (fun _ _ _ => ⟨"boom", rfl⟩) ['P', 'W', 'R'] ['0', '1'] 5
  exact ⟨h.1.trans rfl,
    (h.2 (fun _ => [cbInc, cbBoom, cbDouble]) (build_packet ("PWR01".toList)) 5 []
      rfl).trans rfl⟩

/-! ## C3 — bad magic policy -/

/-- C3, counterexample: the claim allows only two policies on a bad-magic
header — skip the whole frame (consuming the payload-length bytes) or
close the connection.  On the bad-magic header with payload length 2
followed by the two payload bytes `171, 205`, the listener does neither:
it consumes only the 16 header bytes, leaves the payload bytes in the
stream, and continues with the connection open. -/
theorem c3_counterexample :
    listenStep ([66, 65, 68, 33, 0, 0, 0, 16, 0, 0, 0, 2, 1, 0, 0, 0] ++ [171, 205]) =
      StepOut.badMagic [171, 205] ∧
    listenIter (fun _ => ([] : List (Cb Unit)))
        ⟨true, [66, 65, 68, 33, 0, 0, 0, 16, 0, 0, 0, 2, 1, 0, 0, 0] ++ [171, 205], ()⟩ =
      (⟨true, [171, 205], ()⟩, true) :=
  ⟨rfl, rfl⟩

/-- C3, amended: for every 16-byte header whose first 4 bytes are not
`"ISCP"`, the listener follows one deterministic policy and never
crashes, but that policy is: consume exactly the 16 header bytes
(ignoring the payload-length field, so the payload bytes stay in the
stream) and continue the loop with the connection open. -/
theorem c3_bad_magic (input : List Nat) (h16 : ¬ input.length < 16)
    (hmagic : input.take 4 ≠ iscpMagic) :
    listenStep input = StepOut.badMagic (input.drop 16) ∧
    ∀ (σ : Type) (registry : List Char → List (Cb σ)) (dev : σ),
      listenIter registry ⟨true, input, dev⟩ = (⟨true, input.drop 16, dev⟩, true) := by
  have hstep : listenStep input = StepOut.badMagic (input.drop 16) := by
    rw [listenStep, if_neg h16, if_pos hmagic]
  exact ⟨hstep, fun σ registry dev => by simp [listenIter, hstep]⟩

/-- C3, witness: the amended theorem applied to an all-zero header. -/
theorem c3_bad_magic_witness :
    listenStep [0, 0, 0, 0, 0, 0, 0, 16, 0, 0, 0, 0, 1, 0, 0, 0] = StepOut.badMagic [] ∧
    listenIter (fun _ => ([] : List (Cb Unit)))
        ⟨true, [0, 0, 0, 0, 0, 0, 0, 16, 0, 0, 0, 0, 1, 0, 0, 0], ()⟩ =
      (⟨true, [], ()⟩, true) := by
  have h := c3_bad_magic [0, 0, 0, 0, 0, 0, 0, 16, 0, 0, 0, 0, 1, 0, 0, 0]
    (by decide) (by decide)
  exact ⟨h.1, h.2 Unit (fun _ => []) ()⟩

/-! ## C2 — undecodable payload -/

/-- C2, counterexample: the claim says an undecodable payload is never
escalated into a connection loss, but on the well-formed frame whose
1-byte payload `255` is not valid UTF-8 the listener takes the generic
exception path: the iteration ends the loop and clears the connected
flag.  (There is no single-byte fallback decode anywhere in `_listen`.) -/
theorem c2_counterexample :
    listenStep [73, 83, 67, 80, 0, 0, 0, 16, 0, 0, 0, 1, 1, 0, 0, 0, 255] = StepOut.fatal ∧
    listenIter (fun _ => ([] : List (Cb Unit)))
        ⟨true, [73, 83, 67, 80, 0, 0, 0, 16, 0, 0, 0, 1, 1, 0, 0, 0, 255], ()⟩ =
      (⟨false, [73, 83, 67, 80, 0, 0, 0, 16, 0, 0, 0, 1, 1, 0, 0, 0, 255], ()⟩, false) :=
  ⟨rfl, rfl⟩

/-- C2, amended: when a received frame has good magic and a complete
payload that fails strict UTF-8 decoding, the `UnicodeDecodeError` reaches
the listener's generic exception handler: the loop breaks and the
connection flag is cleared — the undecodable payload is escalated into a
connection loss, with no fallback decoding. -/
theorem c2_undecodable_payload (input : List Nat)
    (h16 : ¬ input.length < 16)
    (hmagic : input.take 4 = iscpMagic)
    (hlen : ¬ (input.drop 16).length < be32of ((input.drop 8).take 4))
    (hdec : utf8Decode ((input.drop 16).take (be32of ((input.drop 8).take 4))) = none) :
    listenStep input = StepOut.fatal ∧
    ∀ (σ : Type) (registry : List Char → List (Cb σ)) (dev : σ),
      listenIter registry ⟨true, input, dev⟩ = (⟨false, input, dev⟩, false) := by
  have hstep : listenStep input = StepOut.fatal := by
    rw [listenStep, if_neg h16, if_neg (not_not_intro hmagic), if_neg hlen, hdec]
  exact ⟨hstep, fun σ registry dev => by simp [listenIter, hstep]⟩

/-- C2, witness: the amended theorem applied to the frame whose 1-byte
payload `195` is a lone UTF-8 lead byte. -/
theorem c2_undecodable_payload_witness :
    listenStep [73, 83, 67, 80, 0, 0, 0, 16, 0, 0, 0, 1, 1, 0, 0, 0, 195] = StepOut.fatal :=
  (c2_undecodable_payload [73, 83, 67, 80, 0, 0, 0, 16, 0, 0, 0, 1, 1, 0, 0, 0, 195]
    (by decide) (by decide) (by decide) (by decide)).1

/-! ## C1 — encode/decode round trip -/

/-- An ASCII-alphanumeric character is below 128 and is neither Python
whitespace nor one of the trailing markers. -/
theorem alnum_facts {c : Char} (h : isAsciiAlnum c = true) :
    c.toNat < 128 ∧ isPySpace c = false ∧ isMark c = false := by
  simp only [isAsciiAlnum, decide_eq_true_eq] at h
  refine ⟨by omega, ?_, ?_⟩ <;> simp only [isPySpace, isMark, decide_eq_false_iff_not] <;> omega

/-- A printable-ASCII character is below 128 and is not a trailing
marker. -/
theorem printable_facts {c : Char} (h : isPrintableAscii c = true) :
    c.toNat < 128 ∧ isMark c = false := by
  simp only [isPrintableAscii, decide_eq_true_eq] at h
  refine ⟨by omega, ?_⟩
  simp only [isMark, decide_eq_false_iff_not]
  omega

/-- A printable-ASCII character other than the space is not Python
whitespace. -/
theorem printable_not_space {c : Char} (h : isPrintableAscii c = true) (hne : c ≠ ' ') :
    isPySpace c = false := by
  simp only [isPrintableAscii, decide_eq_true_eq] at h
  have hn : c.toNat ≠ 32 := by
    intro hn
    apply hne
    have h0 := Char.ofNat_toNat c
    rw [hn] at h0
    exact h0.symm.trans (by decide)
  simp only [isPySpace, decide_eq_false_iff_not]
  omega

/-- UTF-8 encoding of an all-ASCII string is the list of its code
points. -/
theorem pyEncodeUtf8_ascii : ∀ (l : List Char), (∀ c ∈ l, c.toNat < 128) →
    pyEncodeUtf8 l = l.map Char.toNat := by
  intro l
  induction l with
  | nil => intro _; rfl
  | cons c cs ih =>
    intro h
    have hc : c.toNat < 128 := h c (List.mem_cons_self c cs)
    have h1 : utf8EncodeChar c = [c.toNat] := by
      simp [utf8EncodeChar, hc]
    calc pyEncodeUtf8 (c :: cs) = utf8EncodeChar c ++ pyEncodeUtf8 cs := by
          simp [pyEncodeUtf8]
    _ = c.toNat :: pyEncodeUtf8 cs := by rw [h1]; rfl
    _ = c.toNat :: cs.map Char.toNat := by
          rw [ih (fun x hx => h x (List.mem_cons_of_mem c hx))]
    _ = (c :: cs).map Char.toNat := rfl

/-- The strict decoder inverts ASCII encoding, for any fuel at least the
byte count. -/
theorem utf8DecodeGo_ascii : ∀ (fuel : Nat) (l : List Char), l.length ≤ fuel →
    (∀ c ∈ l, c.toNat < 128) →
    utf8DecodeGo fuel (l.map Char.toNat) = some l := by
  intro fuel
  induction fuel with
  | zero =>
    intro l hl _
    cases l with
    | nil => rfl
    | cons c cs => simp at hl
  | succ f ih =>
    intro l hl h
    cases l with
    | nil => rfl
    | cons c cs =>
      have hc : c.toNat < 128 := h c (List.mem_cons_self c cs)
      have h1 : utf8DecodeOne (c.toNat :: cs.map Char.toNat) =
          some (c, cs.map Char.toNat) := by
        simp [utf8DecodeOne, hc, Char.ofNat_toNat]
      have h2 : utf8DecodeGo f (cs.map Char.toNat) = some cs :=
        ih cs (by simp at hl; omega) (fun x hx => h x (List.mem_cons_of_mem c hx))
      simp [utf8DecodeGo, h1, h2]

/-- The strict decoder inverts ASCII encoding. -/
theorem utf8Decode_ascii (l : List Char) (h : ∀ c ∈ l, c.toNat < 128) :
    utf8Decode (l.map Char.toNat) = some l := by
  rw [utf8Decode, List.length_map]
  exact utf8DecodeGo_ascii l.length l le_rfl h

/-- Reading back a packed big-endian 32-bit length. -/
theorem be32of_be32 (n : Nat) (h : n < 4294967296) : be32of (be32 n) = n := by
  simp only [be32, be32of]
  omega


/-- `listenStep` on a stream opening with a well-formed header: magic
`ISCP`, header length 16, version 1, and a payload-length field
`[e1, e2, e3, e4]` describing no more than the available `tail`. -/
theorem listenStep_good_header (e1 e2 e3 e4 : Nat) (tail : List Nat)
    (hsize : ¬ tail.length < be32of [e1, e2, e3, e4]) :
    listenStep (73 :: 83 :: 67 :: 80 :: 0 :: 0 :: 0 :: 16 :: e1 :: e2 :: e3 :: e4 ::
        1 :: 0 :: 0 :: 0 :: tail) =
      match utf8Decode (tail.take (be32of [e1, e2, e3, e4])) with
      | none => StepOut.fatal
      | some chars =>
        if 3 ≤ (decodeMessage chars).length then
          StepOut.frame ((decodeMessage chars).take 3) ((decodeMessage chars).drop 3)
            (tail.drop (be32of [e1, e2, e3, e4]))
        else StepOut.dropped (tail.drop (be32of [e1, e2, e3, e4])) := by
  have h1 : ¬ (73 :: 83 :: 67 :: 80 :: 0 :: 0 :: 0 :: 16 :: e1 :: e2 :: e3 :: e4 ::
      1 :: 0 :: 0 :: 0 :: tail).length < 16 := by
    simp
  have h2 : ¬ ((73 :: 83 :: 67 :: 80 :: 0 :: 0 :: 0 :: 16 :: e1 :: e2 :: e3 :: e4 ::
      1 :: 0 :: 0 :: 0 :: tail).take 4 ≠ iscpMagic) :=
    not_not_intro rfl
  have h3 : ¬ ((73 :: 83 :: 67 :: 80 :: 0 :: 0 :: 0 :: 16 :: e1 :: e2 :: e3 :: e4 ::
        1 :: 0 :: 0 :: 0 :: tail).drop 16).length <
      be32of (((73 :: 83 :: 67 :: 80 :: 0 :: 0 :: 0 :: 16 :: e1 :: e2 :: e3 :: e4 ::
        1 :: 0 :: 0 :: 0 :: tail).drop 8).take 4) := hsize
  have e5 : (73 :: 83 :: 67 :: 80 :: 0 :: 0 :: 0 :: 16 :: e1 :: e2 :: e3 :: e4 ::
      1 :: 0 :: 0 :: 0 :: tail).drop 16 = tail := rfl
  have e6 : ((73 :: 83 :: 67 :: 80 :: 0 :: 0 :: 0 :: 16 :: e1 :: e2 :: e3 :: e4 ::
      1 :: 0 :: 0 :: 0 :: tail).drop 8).take 4 = [e1, e2, e3, e4] := rfl
  rw [listenStep, if_neg h1, if_neg h2, if_neg h3, e5, e6]

/-- C1, counterexample: the round trip is claimed for every printable
ASCII value without CR/LF, but a value with a trailing space loses that
space to `str.strip()`: encoding `("PWR", "A ")` and decoding yields
`("PWR", "A")`. -/
theorem c1_counterexample :
    listenStep (build_packet ("PWR".toList ++ ['A', ' ']) ++ []) =
      StepOut.frame ("PWR".toList) ['A'] [] := by
  rfl

/-- C1, amended: for every 3-character ASCII-alphanumeric code and every
printable-ASCII value without CR/LF *that does not end in a space* (and
of bounded length, as `struct.pack("!I", ·)` requires), decoding the
encoded packet yields back exactly the same code and value, leaving the
following stream bytes untouched.  (A trailing space is removed by the
whitespace strip — see the counterexample.) -/
theorem c1_round_trip (a1 a2 a3 : Char) (value : List Char) (rest : List Nat)
    (h1 : isAsciiAlnum a1 = true) (h2 : isAsciiAlnum a2 = true)
    (h3 : isAsciiAlnum a3 = true)
    (hv : ∀ ch ∈ value, isPrintableAscii ch = true)
    (hlast : value.getLast? ≠ some ' ')
    (hbound : value.length + 7 < 4294967296) :
    listenStep (build_packet (a1 :: a2 :: a3 :: value) ++ rest) =
      StepOut.frame [a1, a2, a3] value rest := by
  have hc3 := alnum_facts h3
  -- every payload character is ASCII
  have hac : ∀ ch ∈ ('!' :: '1' :: a1 :: a2 :: a3 :: value) ++ ['\r', '\n'],
      ch.toNat < 128 := by
    intro ch hch
    simp only [List.mem_append, List.mem_cons, List.not_mem_nil, or_false] at hch
    rcases hch with (rfl | rfl | rfl | rfl | rfl | hch) | (rfl | rfl)
    · decide
    · decide
    · exact (alnum_facts h1).1
    · exact (alnum_facts h2).1
    · exact hc3.1
    · exact (printable_facts (hv ch hch)).1
    · decide
    · decide
  -- the tail of the payload never begins with a stripped character
  have hDW1 : List.dropWhile isPySpace (value.reverse ++ [a3, a2, a1, '1', '!']) =
      value.reverse ++ [a3, a2, a1, '1', '!'] := by
    rcases hvr : value.reverse with _ | ⟨x, xs⟩
    · rw [List.nil_append]
      exact List.dropWhile_cons_of_neg (by simp [hc3.2.1])
    · have hxmem : x ∈ value := by
        have hx : x ∈ value.reverse := by rw [hvr]; exact List.mem_cons_self x xs
        exact List.mem_reverse.mp hx
      have hxlast : value.getLast? = some x := by
        rw [List.getLast?_eq_head?_reverse, hvr]
        rfl
      have hxne : x ≠ ' ' := by
        intro hx
        rw [hx] at hxlast
        exact hlast hxlast
      have hxs : isPySpace x = false := printable_not_space (hv x hxmem) hxne
      rw [List.cons_append]
      exact List.dropWhile_cons_of_neg (by simp [hxs])
  have hDW2 : List.dropWhile isMark (value.reverse ++ [a3, a2, a1]) =
      value.reverse ++ [a3, a2, a1] := by
    rcases hvr : value.reverse with _ | ⟨x, xs⟩
    · rw [List.nil_append]
      exact List.dropWhile_cons_of_neg (by simp [hc3.2.2])
    · have hxmem : x ∈ value := by
        have hx : x ∈ value.reverse := by rw [hvr]; exact List.mem_cons_self x xs
        exact List.mem_reverse.mp hx
      have hxm : isMark x = false := (printable_facts (hv x hxmem)).2
      rw [List.cons_append]
      exact List.dropWhile_cons_of_neg (by simp [hxm])
  -- `str.strip()` leaves the body; the marker strip then has nothing to do
  have hstrip : pyStrip (('!' :: '1' :: a1 :: a2 :: a3 :: value) ++ ['\r', '\n']) =
      '!' :: '1' :: a1 :: a2 :: a3 :: value := by
    rw [pyStrip, pyLstrip]
    simp only [List.cons_append]
    rw [List.dropWhile_cons_of_neg (show ¬ isPySpace '!' = true by decide), pyRstrip]
    have hrev : ('!' :: '1' :: a1 :: a2 :: a3 :: (value ++ ['\r', '\n'])).reverse =
        '\n' :: '\r' :: (value.reverse ++ [a3, a2, a1, '1', '!']) := by
      simp
    rw [hrev, List.dropWhile_cons_of_pos (by decide), List.dropWhile_cons_of_pos (by decide),
      hDW1]
    simp
  have hmsg : decodeMessage (('!' :: '1' :: a1 :: a2 :: a3 :: value) ++ ['\r', '\n']) =
      a1 :: a2 :: a3 :: value := by
    rw [decodeMessage, hstrip,
      if_pos (show beginsWith ['!', '1'] ('!' :: '1' :: a1 :: a2 :: a3 :: value) = true
        from rfl),
      show ('!' :: '1' :: a1 :: a2 :: a3 :: value).drop 2 = a1 :: a2 :: a3 :: value from rfl,
      rstripMarks]
    have hrev2 : (a1 :: a2 :: a3 :: value).reverse = value.reverse ++ [a3, a2, a1] := by
      simp
    rw [hrev2, hDW2]
    simp
  -- the encoded bytes of the payload
  have hpe : pyEncodeUtf8 (('!' :: '1' :: a1 :: a2 :: a3 :: value) ++ ['\r', '\n']) =
      (('!' :: '1' :: a1 :: a2 :: a3 :: value) ++ ['\r', '\n']).map Char.toNat :=
    pyEncodeUtf8_ascii _ hac
  have hbslen : (((('!' :: '1' :: a1 :: a2 :: a3 :: value) ++ ['\r', '\n']).map
      Char.toNat)).length = value.length + 7 := by
    simp
  -- the packet in explicit header-then-payload form
  have hpacket : build_packet (a1 :: a2 :: a3 :: value) ++ rest =
      73 :: 83 :: 67 :: 80 :: 0 :: 0 :: 0 :: 16 ::
        (((('!' :: '1' :: a1 :: a2 :: a3 :: value) ++ ['\r', '\n']).map
          Char.toNat).length / 16777216 % 256) ::
        (((('!' :: '1' :: a1 :: a2 :: a3 :: value) ++ ['\r', '\n']).map
          Char.toNat).length / 65536 % 256) ::
        (((('!' :: '1' :: a1 :: a2 :: a3 :: value) ++ ['\r', '\n']).map
          Char.toNat).length / 256 % 256) ::
        (((('!' :: '1' :: a1 :: a2 :: a3 :: value) ++ ['\r', '\n']).map
          Char.toNat).length % 256) ::
        1 :: 0 :: 0 :: 0 ::
        (((('!' :: '1' :: a1 :: a2 :: a3 :: value) ++ ['\r', '\n']).map Char.toNat) ++
          rest) := by
    simp only [build_packet]
    rw [hpe]
    simp [iscpMagic, be32]
  have hbe : be32of
      [((('!' :: '1' :: a1 :: a2 :: a3 :: value) ++ ['\r', '\n']).map
          Char.toNat).length / 16777216 % 256,
        ((('!' :: '1' :: a1 :: a2 :: a3 :: value) ++ ['\r', '\n']).map
          Char.toNat).length / 65536 % 256,
        ((('!' :: '1' :: a1 :: a2 :: a3 :: value) ++ ['\r', '\n']).map
          Char.toNat).length / 256 % 256,
        ((('!' :: '1' :: a1 :: a2 :: a3 :: value) ++ ['\r', '\n']).map
          Char.toNat).length % 256] =
      ((('!' :: '1' :: a1 :: a2 :: a3 :: value) ++ ['\r', '\n']).map Char.toNat).length :=
    be32of_be32 _ (by rw [hbslen]; omega)
  have hsize : ¬ (((('!' :: '1' :: a1 :: a2 :: a3 :: value) ++ ['\r', '\n']).map
        Char.toNat) ++ rest).length <
      be32of
        [((('!' :: '1' :: a1 :: a2 :: a3 :: value) ++ ['\r', '\n']).map
            Char.toNat).length / 16777216 % 256,
          ((('!' :: '1' :: a1 :: a2 :: a3 :: value) ++ ['\r', '\n']).map
            Char.toNat).length / 65536 % 256,
          ((('!' :: '1' :: a1 :: a2 :: a3 :: value) ++ ['\r', '\n']).map
            Char.toNat).length / 256 % 256,
          ((('!' :: '1' :: a1 :: a2 :: a3 :: value) ++ ['\r', '\n']).map
            Char.toNat).length % 256] := by
    rw [hbe, List.length_append]
    omega
  have htake : (((('!' :: '1' :: a1 :: a2 :: a3 :: value) ++ ['\r', '\n']).map
        Char.toNat) ++ rest).take
      (((('!' :: '1' :: a1 :: a2 :: a3 :: value) ++ ['\r', '\n']).map Char.toNat).length) =
      ((('!' :: '1' :: a1 :: a2 :: a3 :: value) ++ ['\r', '\n']).map Char.toNat) :=
    List.take_left' rfl
  have hdrop : (((('!' :: '1' :: a1 :: a2 :: a3 :: value) ++ ['\r', '\n']).map
        Char.toNat) ++ rest).drop
      (((('!' :: '1' :: a1 :: a2 :: a3 :: value) ++ ['\r', '\n']).map Char.toNat).length) =
      rest :=
    List.drop_left' rfl
  rw [hpacket, listenStep_good_header _ _ _ _ _ hsize, hbe, htake, hdrop,
    utf8Decode_ascii _ hac]
  simp only [hmsg]
  rw [if_pos (show 3 ≤ (a1 :: a2 :: a3 :: value).length by simp)]
  rfl

/-- C1, witness: the amended theorem applied to the code `PWR` and value
`01`. -/
theorem c1_round_trip_witness :
    listenStep (build_packet ('P' :: 'W' :: 'R' :: "01".toList) ++ []) =
      StepOut.frame ['P', 'W', 'R'] ("01".toList) [] :=
  c1_round_trip 'P' 'W' 'R' ("01".toList) [] (by decide) (by decide) (by decide)
    (by decide) (by decide) (by decide)
